import Mathlib

set_option maxHeartbeats 1000000
set_option maxRecDepth 100000

/-!
Verification of the Worksphere backend's real-time presence, conversation
authorization and message-delivery subsystem.  The definitions below are a
shallow embedding of the relevant JavaScript source files:

* `Worksphere.Socket` embeds the connection registry and presence broadcast
  logic of `socket.js` (the `register` / `disconnect` handlers, the
  `connectedUsers` map and `isActorOnline`).
* `Worksphere.Chat` embeds the chat controller (`startConversation`,
  `listMessages`, `sendMessage`, `markRead`), the conversation and message
  Mongoose models, and `createNotification`.

MongoDB identifiers are modelled as `Nat` (`_id` values are unique and
monotonically increasing, which the embedding realises with a `nextId`
counter), dates as `Nat` timestamps, and JavaScript strings as `String`.
-/

namespace Worksphere

namespace Socket

/-- `keyForActor` from socket.js: renders a `(type, id)` principal pair as a
single string key, prefix `c:` for companies and `u:` for everything else. -/
def keyForActor (t i : String) : String :=
  (if t = "company" then "c" else "u") ++ ":" ++ i

/-- Presence broadcasts emitted by the socket layer: the global
`user:online` / `user:offline` events. -/
inductive Emit where
  | online (t i : String)
  | offline (t i : String)
deriving DecidableEq, Repr

/-- State of the socket layer: the `connectedUsers` map (actor key to the set
of live socket ids, modelled as a duplicate-free list) together with the
per-socket actor fields (`socket.actorKey`, `socket.actorType`,
`socket.actorId`) assigned during `register`. -/
structure RegState where
  connectedUsers : List (String × List Nat)
  actors : List (Nat × (String × String × String))
deriving DecidableEq, Repr

def RegState.empty : RegState := ⟨[], []⟩

/-- `connectedUsers.get(key)` on the association-list model of a JS `Map`. -/
def lookupKey (m : List (String × List Nat)) (k : String) : Option (List Nat) :=
  match m.find? (fun e => e.1 == k) with
  | some e => some e.2
  | none => none

/-- `connectedUsers.set(key, v)`: replace the binding in place, or append a
fresh one (JS `Map` keeps insertion order and unique keys). -/
def setKey (m : List (String × List Nat)) (k : String) (v : List Nat) :
    List (String × List Nat) :=
  match m with
  | [] => [(k, v)]
  | e :: rest => if e.1 = k then (k, v) :: rest else e :: setKey rest k v

/-- `socketSet.add(socket.id)` on the list model of a JS `Set`. -/
def addHandle (hs : List Nat) (sid : Nat) : List Nat :=
  if sid ∈ hs then hs else hs ++ [sid]

/-- The per-socket actor assignment performed by the `register` handler. -/
def setActor (l : List (Nat × (String × String × String))) (sid : Nat)
    (v : String × String × String) : List (Nat × (String × String × String)) :=
  match l with
  | [] => [(sid, v)]
  | e :: rest => if e.1 = sid then (sid, v) :: rest else e :: setActor rest sid v

/-- Read back the actor fields stored on a socket, if it ever registered. -/
def lookupActor (l : List (Nat × (String × String × String))) (sid : Nat) :
    Option (String × String × String) :=
  match l.find? (fun e => e.1 == sid) with
  | some e => some e.2
  | none => none

/-- The `register` event handler from `initSocket`.  A payload of `none`
models a malformed registration (neither a string id nor an object carrying
truthy `id` and `type`), which the handler ignores.  A valid payload
`(t, i)` adds the socket to the key's handle set, records the actor fields on
the socket, and always broadcasts `user:online`. -/
def registerStep (s : RegState) (sid : Nat) (payload : Option (String × String)) :
    RegState × List Emit :=
  match payload with
  | none => (s, [])
  | some (t, i) =>
    let k := keyForActor t i
    let cur := (lookupKey s.connectedUsers k).getD []
    ({ connectedUsers := setKey s.connectedUsers k (addHandle cur sid),
       actors := setActor s.actors sid (k, t, i) },
     [Emit.online t i])

/-- The sweep performed by the `disconnect` handler: every entry of
`connectedUsers` drops the socket id; entries whose set becomes empty are
deleted, and `user:offline` is broadcast for a deleted entry exactly when its
key equals the disconnecting socket's recorded `actorKey` and the recorded
`actorType` / `actorId` are truthy (non-empty) strings. -/
def sweep (info : Option (String × String × String)) (sid : Nat) :
    List (String × List Nat) → List (String × List Nat) × List Emit
  | [] => ([], [])
  | (k, hs) :: rest =>
    let hs' := hs.erase sid
    let r := sweep info sid rest
    if hs' = [] then
      match info with
      | some (k0, t, i) =>
        if k = k0 ∧ t ≠ "" ∧ i ≠ "" then (r.1, Emit.offline t i :: r.2)
        else r
      | none => r
    else ((k, hs') :: r.1, r.2)

/-- The `disconnect` event handler from `initSocket`. -/
def disconnectStep (s : RegState) (sid : Nat) : RegState × List Emit :=
  let r := sweep (lookupActor s.actors sid) sid s.connectedUsers
  ({ s with connectedUsers := r.1 }, r.2)

/-- Connection-lifecycle events applied to the registry. -/
inductive REv where
  | register (sid : Nat) (payload : Option (String × String))
  | disconnect (sid : Nat)
deriving DecidableEq, Repr

def step (s : RegState) : REv → RegState × List Emit
  | .register sid p => registerStep s sid p
  | .disconnect sid => disconnectStep s sid

/-- The registry state reached from process start after a finite sequence of
register / disconnect events. -/
def run (evs : List REv) : RegState :=
  evs.foldl (fun s e => (step s e).1) RegState.empty

/-- The set of live connection handles currently registered for a key. -/
def handlesFor (s : RegState) (k : String) : List Nat :=
  (lookupKey s.connectedUsers k).getD []

/-- `isActorOnline` from socket.js:
`connectedUsers.has(key) && connectedUsers.get(key)?.size > 0`. -/
def isActorOnline (s : RegState) (t i : String) : Bool :=
  match lookupKey s.connectedUsers (keyForActor t i) with
  | some hs => hs.length > 0
  | none => false

/-- Registry invariant: every entry of `connectedUsers` holds a non-empty
handle set, and keys are pairwise distinct (as in a JS `Map`). -/
def GoodReg (s : RegState) : Prop :=
  (∀ e ∈ s.connectedUsers, e.2 ≠ []) ∧ (s.connectedUsers.map Prod.fst).Nodup

theorem goodReg_empty : GoodReg RegState.empty := by
  constructor
  · intro e he; cases he
  · simp [RegState.empty]

theorem setKey_entries (m : List (String × List Nat)) (k : String) (v : List Nat) :
    ∀ e ∈ setKey m k v, e = (k, v) ∨ e ∈ m := by
  induction m with
  | nil => intro e he; simp [setKey] at he; simp [he]
  | cons hd tl ih =>
    intro e he
    simp only [setKey] at he
    by_cases h : hd.1 = k
    · simp [h] at he
      rcases he with h1 | h1
      · exact Or.inl h1
      · exact Or.inr (List.mem_cons_of_mem _ h1)
    · simp [h] at he
      rcases he with h1 | h1
      · exact Or.inr (by simp [h1])
      · rcases ih e h1 with h2 | h2
        · exact Or.inl h2
        · exact Or.inr (List.mem_cons_of_mem _ h2)

theorem lookupKey_cons (hd : String × List Nat) (tl : List (String × List Nat))
    (k : String) :
    lookupKey (hd :: tl) k = if hd.1 = k then some hd.2 else lookupKey tl k := by
  by_cases h : hd.1 = k
  · simp [lookupKey, List.find?, h]
  · have hb : (hd.1 == k) = false := beq_eq_false_iff_ne.mpr h
    simp [lookupKey, List.find?, hb, h]

theorem lookupKey_none (m : List (String × List Nat)) (k : String)
    (h : lookupKey m k = none) : ∀ e ∈ m, e.1 ≠ k := by
  intro e he
  simp only [lookupKey] at h
  cases hy : m.find? (fun e2 => e2.1 == k) with
  | some v => rw [hy] at h; cases h
  | none =>
    have := List.find?_eq_none.mp hy e he
    simpa using this

theorem setKey_keys_of_some (m : List (String × List Nat)) (k : String)
    (v hs : List Nat) (h : lookupKey m k = some hs) :
    (setKey m k v).map Prod.fst = m.map Prod.fst := by
  induction m with
  | nil => simp [lookupKey] at h
  | cons hd tl ih =>
    rw [lookupKey_cons] at h
    simp only [setKey]
    by_cases hh : hd.1 = k
    · simp [hh]
    · rw [if_neg hh] at h ⊢
      simp [ih h]

theorem setKey_keys_of_none (m : List (String × List Nat)) (k : String)
    (v : List Nat) (h : lookupKey m k = none) :
    (setKey m k v).map Prod.fst = m.map Prod.fst ++ [k] := by
  induction m with
  | nil => simp [setKey]
  | cons hd tl ih =>
    rw [lookupKey_cons] at h
    by_cases hh : hd.1 = k
    · rw [if_pos hh] at h; cases h
    · rw [if_neg hh] at h
      simp only [setKey, if_neg hh, List.map_cons]
      simp [ih h]

theorem sweep_entries_sublist (info : Option (String × String × String)) (sid : Nat)
    (m : List (String × List Nat)) :
    ((sweep info sid m).1.map Prod.fst).Sublist (m.map Prod.fst) := by
  induction m with
  | nil => simp [sweep]
  | cons hd tl ih =>
    obtain ⟨k, hs⟩ := hd
    simp only [sweep]
    by_cases h : hs.erase sid = []
    · simp only [h, if_pos rfl]
      cases info with
      | none => exact ih.cons _
      | some kti =>
        obtain ⟨k0, t, i⟩ := kti
        by_cases h2 : k = k0 ∧ t ≠ "" ∧ i ≠ ""
        · simp only [if_pos h2]; exact ih.cons _
        · simp only [if_neg h2]; exact ih.cons _
    · simp only [if_neg h, List.map_cons]
      exact ih.cons₂ _

theorem sweep_entries_nonempty (info : Option (String × String × String)) (sid : Nat)
    (m : List (String × List Nat)) :
    ∀ e ∈ (sweep info sid m).1, e.2 ≠ [] := by
  induction m with
  | nil => intro e he; simp [sweep] at he
  | cons hd tl ih =>
    obtain ⟨k, hs⟩ := hd
    intro e he
    simp only [sweep] at he
    by_cases h : hs.erase sid = []
    · simp only [h, if_pos rfl] at he
      cases info with
      | none => exact ih e he
      | some kti =>
        obtain ⟨k0, t, i⟩ := kti
        by_cases h2 : k = k0 ∧ t ≠ "" ∧ i ≠ ""
        · simp only [if_pos h2] at he; exact ih e he
        · simp only [if_neg h2] at he; exact ih e he
    · simp only [if_neg h, List.mem_cons] at he
      rcases he with h1 | h1
      · subst h1; exact h
      · exact ih e h1

theorem goodReg_step (s : RegState) (e : REv) (hg : GoodReg s) :
    GoodReg (step s e).1 := by
  obtain ⟨hne, hnd⟩ := hg
  cases e with
  | register sid p =>
    cases p with
    | none => exact ⟨hne, hnd⟩
    | some ti =>
      obtain ⟨t, i⟩ := ti
      constructor
      · intro e he
        simp only [step, registerStep] at he
        rcases setKey_entries _ _ _ e he with h1 | h1
        · subst h1
          simp only [addHandle, ne_eq]
          by_cases hmem : sid ∈ (lookupKey s.connectedUsers (keyForActor t i)).getD []
          · simp only [if_pos hmem]
            intro hcon
            rw [hcon] at hmem
            cases hmem
          · simp [if_neg hmem]
        · exact hne e h1
      · simp only [step, registerStep]
        cases hx : lookupKey s.connectedUsers (keyForActor t i) with
        | some hs =>
          rw [setKey_keys_of_some _ _ _ hs hx]
          exact hnd
        | none =>
          rw [setKey_keys_of_none _ _ _ hx]
          refine List.Nodup.append hnd (List.nodup_singleton _) ?_
          intro a ha hb
          simp only [List.mem_singleton] at hb
          subst hb
          simp only [List.mem_map] at ha
          obtain ⟨ent, hent, hkey⟩ := ha
          exact lookupKey_none _ _ hx ent hent hkey
  | disconnect sid =>
    constructor
    · intro e he
      exact sweep_entries_nonempty _ _ _ e he
    · exact List.Nodup.sublist (sweep_entries_sublist _ _ _) hnd

theorem goodReg_run (evs : List REv) : GoodReg (run evs) := by
  suffices h : ∀ s, GoodReg s → GoodReg (evs.foldl (fun s e => (step s e).1) s) by
    exact h RegState.empty goodReg_empty
  induction evs with
  | nil => intro s hs; exact hs
  | cons e rest ih =>
    intro s hs
    exact ih _ (goodReg_step s e hs)

/-- C2: membership of a non-empty handle set is exactly what
`isActorOnline` reports, at every reachable registry state. -/
theorem isActorOnline_iff_handles (evs : List REv) (t i : String) :
    isActorOnline (run evs) t i = true ↔ handlesFor (run evs) (keyForActor t i) ≠ [] := by
  have hg := goodReg_run evs
  obtain ⟨hne, _⟩ := hg
  unfold isActorOnline handlesFor
  cases hx : lookupKey (run evs).connectedUsers (keyForActor t i) with
  | none => simp
  | some hs =>
    simp only [Option.getD_some]
    have hmem : (keyForActor t i, hs) ∈ (run evs).connectedUsers := by
      simp only [lookupKey] at hx
      cases hy : (run evs).connectedUsers.find? (fun e => e.1 == keyForActor t i) with
      | none => rw [hy] at hx; cases hx
      | some ent =>
        rw [hy] at hx
        have hpred := List.find?_some hy
        have hmem2 := List.mem_of_find?_eq_some hy
        simp only [beq_iff_eq] at hpred
        obtain ⟨e1, e2⟩ := ent
        simp only at hpred
        injection hx with hx2
        subst hpred
        subst hx2
        exact hmem2
    have := hne _ hmem
    simp only at this
    constructor
    · intro _ hcon
      exact this hcon
    · intro h
      simp only [gt_iff_lt, decide_eq_true_eq]
      exact List.length_pos.mpr h

theorem sweep_none_emits (sid : Nat) (m : List (String × List Nat)) :
    (sweep none sid m).2 = [] := by
  induction m with
  | nil => simp [sweep]
  | cons hd tl ih =>
    obtain ⟨k, hs⟩ := hd
    simp only [sweep]
    by_cases h : hs.erase sid = []
    · simp only [h, if_pos rfl]; exact ih
    · simp only [if_neg h]; exact ih

theorem sweep_emits_of_not_mem (sid : Nat) (k0 t i : String)
    (m : List (String × List Nat)) (h : k0 ∉ m.map Prod.fst) :
    (sweep (some (k0, t, i)) sid m).2 = [] := by
  induction m with
  | nil => simp [sweep]
  | cons hd tl ih =>
    obtain ⟨k, hs⟩ := hd
    simp only [List.map_cons, List.mem_cons, not_or] at h
    obtain ⟨hk, htl⟩ := h
    simp only [sweep]
    by_cases he : hs.erase sid = []
    · simp only [he, if_pos rfl]
      have : ¬(k = k0 ∧ t ≠ "" ∧ i ≠ "") := by
        intro hcon
        exact hk hcon.1.symm
      simp only [if_neg this]
      exact ih htl
    · simp only [if_neg he]
      exact ih htl

theorem sweep_emits_char (sid : Nat) (k0 t i : String)
    (m : List (String × List Nat)) (hnd : (m.map Prod.fst).Nodup)
    (hne : ∀ e ∈ m, e.2 ≠ []) :
    (sweep (some (k0, t, i)) sid m).2 =
      if ((lookupKey m k0).getD []).erase sid = [] ∧ (lookupKey m k0).getD [] ≠ [] ∧
          t ≠ "" ∧ i ≠ ""
      then [Emit.offline t i] else [] := by
  induction m with
  | nil => simp [sweep, lookupKey]
  | cons hd tl ih =>
    obtain ⟨k, hs⟩ := hd
    simp only [List.map_cons, List.nodup_cons] at hnd
    obtain ⟨hk, hndtl⟩ := hnd
    have hnetl : ∀ e ∈ tl, e.2 ≠ [] := fun e he => hne e (List.mem_cons_of_mem _ he)
    have hhs : hs ≠ [] := hne (k, hs) (List.mem_cons_self _ _)
    rw [lookupKey_cons]
    simp only [sweep]
    have hsw := sweep_emits_of_not_mem sid k0 t i tl
    by_cases hkk : k = k0
    · subst hkk
      by_cases he : hs.erase sid = []
      · simp [he, hhs, hsw hk, apply_ite Prod.snd]
      · simp [he, hsw hk, apply_ite Prod.snd]
    · by_cases he : hs.erase sid = []
      · have hne2 : ¬(k = k0 ∧ t ≠ "" ∧ i ≠ "") := fun hcon => hkk hcon.1
        simpa [he, hne2, hkk, apply_ite Prod.snd] using ih hndtl hnetl
      · simpa [he, hkk, apply_ite Prod.snd] using ih hndtl hnetl

/-- The property asserted by C1 for the online direction: a `user:online`
broadcast is only emitted by a registration when the principal's handle set
was empty beforehand. -/
def onlineOnlyOnZeroTransition : Prop :=
  ∀ (evs : List REv) (sid : Nat) (p : Option (String × String)) (t i : String),
    Emit.online t i ∈ (step (run evs) (REv.register sid p)).2 →
    handlesFor (run evs) (keyForActor t i) = []

/-- C1 counterexample: after socket 1 registers principal `(user, a)`, a
second registration by socket 2 for the same principal re-broadcasts
`user:online` even though the live handle count is already nonzero. -/
theorem register_rebroadcasts_online : ¬ onlineOnlyOnZeroTransition := by
  intro h
  have h2 := h [REv.register 1 (some ("user", "a"))] 2 (some ("user", "a"))
    "user" "a" (by decide)
  exact absurd h2 (by decide)

/-- C1 (amended): at every reachable registry state, a registration with a
valid payload broadcasts `user:online` unconditionally (in particular it
re-broadcasts for an already-online principal), a malformed registration
broadcasts nothing, and a disconnect broadcasts `user:offline` exactly once
iff removing the socket empties the handle set of the socket's recorded actor
key (the nonzero-to-zero transition) and the recorded actor type and id are
non-empty strings. -/
theorem presence_broadcast_characterization (evs : List REv) (sid : Nat)
    (p : Option (String × String)) :
    ((step (run evs) (REv.register sid p)).2 =
      match p with
      | some (t, i) => [Emit.online t i]
      | none => []) ∧
    ((step (run evs) (REv.disconnect sid)).2 =
      match lookupActor (run evs).actors sid with
      | some (k, t, i) =>
          if (handlesFor (run evs) k).erase sid = [] ∧ handlesFor (run evs) k ≠ [] ∧
              t ≠ "" ∧ i ≠ ""
          then [Emit.offline t i] else []
      | none => []) := by
  constructor
  · cases p with
    | none => rfl
    | some ti => obtain ⟨t, i⟩ := ti; rfl
  · obtain ⟨hne, hnd⟩ := goodReg_run evs
    simp only [step, disconnectStep]
    cases hx : lookupActor (run evs).actors sid with
    | none => exact sweep_none_emits sid _
    | some kti =>
      obtain ⟨k, t, i⟩ := kti
      exact sweep_emits_char sid k t i _ hnd hne

end Socket

namespace Chat

/-- A stored chat attachment (`attachments` entries of the Message model). -/
structure Attachment where
  url : String
  kind : String
  name : String
  size : Nat
deriving DecidableEq, Repr

/-- A row of the Conversation collection (models/Conversation.js).  The two
archive flags model the nested `archivedBy` object. -/
structure Conversation where
  id : Nat
  user : Nat
  company : Nat
  lastMessageAt : Nat
  lastMessagePreview : String
  userUnreadCount : Nat
  companyUnreadCount : Nat
  archivedByUser : Bool
  archivedByCompany : Bool
deriving DecidableEq, Repr

/-- A row of the Message collection (models/Message.js).  The schema declares
`trim: true` on `text`, so the stored text is always trimmed. -/
structure Msg where
  id : Nat
  conversation : Nat
  senderType : String
  senderUser : Option Nat
  senderCompany : Option Nat
  text : String
  attachments : List Attachment
  createdAt : Nat
  deliveredAt : Nat
  readAt : Option Nat
deriving DecidableEq, Repr

/-- A row of the Notification collection, restricted to the fields the
message-fallback path writes. -/
structure Notif where
  userId : Option Nat
  companyId : Option Nat
  kind : String
  title : String
  message : String
  priority : String
deriving DecidableEq, Repr

/-- The durable store: conversations, messages and notifications, plus a
fresh-id counter standing for MongoDB's monotonically increasing `_id`s. -/
structure World where
  convos : List Conversation
  msgs : List Msg
  notifs : List Notif
  nextId : Nat
deriving DecidableEq, Repr

/-- The principal resolved by the actor middleware:
`req.actor = { type: "user" | "company", id }`. -/
structure Actor where
  typ : String
  id : Nat
deriving DecidableEq, Repr

/-- Replace the first list entry satisfying `p` (the document matched by a
Mongo `findOneAndUpdate` / `save`). -/
def updateFirst (p : Conversation → Bool) (f : Conversation → Conversation) :
    List Conversation → List Conversation
  | [] => []
  | conv :: rest => if p conv then f conv :: rest else conv :: updateFirst p f rest

/-- The `{user, company}` pair filter of the conversation upsert. -/
def matchesPair (u c : Nat) (conv : Conversation) : Bool :=
  conv.user == u && conv.company == c

/-- `Conversation.findOneAndUpdate({user, company}, {$setOnInsert: {user,
company}, $set: {lastMessageAt: now}}, {upsert: true, new: true})` from
`startConversation`: update the matched row's `lastMessageAt`, or insert a
fresh row for the pair (schema defaults: empty preview, zero unread counts,
unarchived). -/
def findOneAndUpdateConversation (w : World) (u c now : Nat) :
    World × Conversation :=
  match w.convos.find? (matchesPair u c) with
  | some conv =>
    let touched :=
      updateFirst (matchesPair u c) (fun d => { d with lastMessageAt := now }) w.convos
    ({ w with convos := touched }, { conv with lastMessageAt := now })
  | none =>
    let conv : Conversation :=
      { id := w.nextId, user := u, company := c, lastMessageAt := now,
        lastMessagePreview := "", userUnreadCount := 0, companyUnreadCount := 0,
        archivedByUser := false, archivedByCompany := false }
    ({ w with convos := w.convos ++ [conv], nextId := w.nextId + 1 }, conv)

/-- `startConversation`: the acting side supplies the counterparty id, the
actor's own id fills the other slot, then the pair is upserted. -/
def startConversation (w : World) (actor : Actor) (counterparty now : Nat) :
    World × Conversation :=
  let u := if actor.typ = "user" then actor.id else counterparty
  let c := if actor.typ = "user" then counterparty else actor.id
  findOneAndUpdateConversation w u c now

/-- Iterate `startConversation`'s upsert for one `(user, company)` pair at the
given sequence of timestamps, collecting the returned conversation ids. -/
def runStarts (w : World) (u c : Nat) : List Nat → World × List Nat
  | [] => (w, [])
  | t :: ts =>
    let r := findOneAndUpdateConversation w u c t
    let rest := runStarts r.1 u c ts
    (rest.1, r.2.id :: rest.2)

/-- Number of stored conversation rows for a pair (the unique index on
`{user: 1, company: 1}` keeps this at most one). -/
def countPair (w : World) (u c : Nat) : Nat :=
  (w.convos.filter (matchesPair u c)).length

/-- `createNotification` from notificationController.js, restricted to the
persistence effect: require at least one recipient id, then insert. -/
def createNotification (w : World) (n : Notif) : World :=
  if n.userId = none ∧ n.companyId = none then w
  else { w with notifs := w.notifs ++ [n] }

/-- JavaScript `s.slice(0, n)` on the character-list view of a string
(structurally recursive so that proofs can evaluate it). -/
def takeChars (s : String) (n : Nat) : String :=
  String.mk (s.data.take n)

/-- JavaScript `s.trim()` (also applied by the Mongoose `trim: true` schema
option): drop whitespace from both ends. -/
def jsTrim (s : String) : String :=
  String.mk
    (((s.data.dropWhile Char.isWhitespace).reverse.dropWhile
      Char.isWhitespace).reverse)

/-- JavaScript `s.startsWith(p)` on the character-list view. -/
def strStartsWith (s p : String) : Bool :=
  s.data.take p.data.length == p.data

/-- `req.file` as produced by the multer single-file upload. -/
structure UploadedFile where
  filename : String
  mimetype : String
  originalname : String
  size : Nat
deriving DecidableEq, Repr

/-- The body of a send request: optional `text`, at most one uploaded file. -/
structure SendInput where
  text : Option String
  file : Option UploadedFile
deriving DecidableEq, Repr

inductive SendResult where
  | ok (m : Msg)
  | notFound
  | forbidden
  | invalidText
deriving DecidableEq, Repr

/-- The accepted-path tail of `sendMessage`: persist the message (Mongoose
trims `text` on save), bump the non-sending side's unread counter, refresh
`lastMessageAt` / `lastMessagePreview`, then — when the recipient is offline —
persist a `message_received` notification whose message is the first 100
characters of the text with a trailing ellipsis when longer, or the
attachment placeholder when the text is empty. -/
def sendAccept (isOnline : String → Nat → Bool)
    (profileName : String → Nat → Option String) (w : World) (actor : Actor)
    (convo : Conversation) (txt : String) (atts : List Attachment) (now : Nat) :
    World × SendResult :=
  let msg : Msg :=
    { id := w.nextId, conversation := convo.id, senderType := actor.typ,
      senderUser := if actor.typ = "user" then some actor.id else none,
      senderCompany := if actor.typ = "company" then some actor.id else none,
      text := jsTrim txt, attachments := atts, createdAt := now,
      deliveredAt := now, readAt := none }
  let isSenderUser := actor.typ = "user"
  let convo' : Conversation :=
    { convo with
      lastMessageAt := msg.createdAt,
      lastMessagePreview := takeChars msg.text 200,
      userUnreadCount :=
        if isSenderUser then convo.userUnreadCount else convo.userUnreadCount + 1,
      companyUnreadCount :=
        if isSenderUser then convo.companyUnreadCount + 1 else convo.companyUnreadCount }
  let w1 : World :=
    { w with
      msgs := w.msgs ++ [msg],
      convos := updateFirst (fun d => d.id == convo.id) (fun _ => convo') w.convos,
      nextId := w.nextId + 1 }
  let recipientType := if isSenderUser then "company" else "user"
  let recipientId := if isSenderUser then convo.company else convo.user
  if isOnline recipientType recipientId then (w1, .ok msg)
  else
    let senderName := (profileName actor.typ actor.id).getD
      (if isSenderUser then "A user" else "A company")
    let preview :=
      if msg.text = "" then "Sent an attachment"
      else takeChars msg.text 100 ++ (if msg.text.length > 100 then "..." else "")
    let n : Notif :=
      { userId := if recipientType = "user" then some recipientId else none,
        companyId := if recipientType = "company" then some recipientId else none,
        kind := "message_received",
        title := "New message from " ++ senderName,
        message := preview,
        priority := "medium" }
    (createNotification w1 n, .ok msg)

/-- `sendMessage` from chatController.js: conversation lookup, participant
authorization, payload validation (attachment branch versus text branch), then
the accepted-path tail. -/
def sendMessage (isOnline : String → Nat → Bool)
    (profileName : String → Nat → Option String) (w : World) (actor : Actor)
    (conversationId : Nat) (inp : SendInput) (now : Nat) : World × SendResult :=
  match w.convos.find? (fun conv => conv.id == conversationId) with
  | none => (w, .notFound)
  | some convo =>
    let isUser := actor.typ = "user" ∧ convo.user = actor.id
    let isCompany := actor.typ = "company" ∧ convo.company = actor.id
    if ¬(isUser ∨ isCompany) then (w, .forbidden)
    else
      match inp.file with
      | some f =>
        let isImage := strStartsWith f.mimetype "image/"
        let atts : List Attachment :=
          [{ url := "/uploads/chat/" ++ f.filename,
             kind := if isImage then "image" else "file",
             name := f.originalname, size := f.size }]
        let txt := match inp.text with
          | some t => if t = "" then "" else takeChars t 4000
          | none => ""
        sendAccept isOnline profileName w actor convo txt atts now
      | none =>
        match inp.text with
        | none => (w, .invalidText)
        | some t =>
          if t = "" ∨ t.length > 4000 then (w, .invalidText)
          else sendAccept isOnline profileName w actor convo (jsTrim t) [] now

inductive MarkReadResult where
  | ok
  | notFound
  | forbidden
deriving DecidableEq, Repr

/-- The per-message effect of markRead's
`Message.updateMany({conversation, readAt: {$exists: false}, senderType:
other}, {$set: {readAt: now}})`. -/
def stampMsg (cid : Nat) (other : String) (now : Nat) (m : Msg) : Msg :=
  if m.conversation = cid ∧ m.readAt = none ∧ m.senderType = other
  then { m with readAt := some now } else m

/-- `markRead` from chatController.js: conversation lookup, membership check
(`type === "user"` picks the user side, everything else the company side),
batch-stamp unread counterparty messages, reset the reading side's unread
counter. -/
def markRead (w : World) (actor : Actor) (conversationId now : Nat) :
    World × MarkReadResult :=
  match w.convos.find? (fun conv => conv.id == conversationId) with
  | none => (w, .notFound)
  | some convo =>
    let isUser := actor.typ = "user"
    let isMember := (isUser ∧ convo.user = actor.id) ∨ (¬isUser ∧ convo.company = actor.id)
    if ¬isMember then (w, .forbidden)
    else
      let other := if isUser then "company" else "user"
      let convo' :=
        if isUser then { convo with userUnreadCount := 0 }
        else { convo with companyUnreadCount := 0 }
      ({ w with
          msgs := w.msgs.map (stampMsg conversationId other now),
          convos := updateFirst (fun d => d.id == convo.id) (fun _ => convo') w.convos },
       .ok)

inductive ListResult where
  | ok (messages : List Msg) (nextCursor : Option Nat)
  | notFound
  | forbidden
deriving DecidableEq, Repr

/-- `Math.min(parseInt(limit, 10) || 30, 100)`: an absent (or zero, i.e.
falsy) limit falls back to 30, then the cap of 100 applies. -/
def limVal : Option Nat → Nat
  | none => 30
  | some n => min (if n = 0 then 30 else n) 100

/-- Insertion step of sorting messages by `_id` descending. -/
def insertDesc (m : Msg) : List Msg → List Msg
  | [] => [m]
  | x :: xs => if x.id ≤ m.id then m :: x :: xs else x :: insertDesc m xs

/-- `Message.find(query).sort({_id: -1})`. -/
def sortByIdDesc : List Msg → List Msg
  | [] => []
  | m :: rest => insertDesc m (sortByIdDesc rest)

/-- `listMessages` from chatController.js: clamp the limit, look up and
authorize the conversation, query messages below the cursor sorted by `_id`
descending, take a page, return it reversed (ascending) together with the
next cursor (the smallest `_id` of the page). -/
def listMessages (w : World) (actor : Actor) (conversationId : Nat)
    (cursor : Option Nat) (limit : Option Nat) : ListResult :=
  let lim := limVal limit
  match w.convos.find? (fun conv => conv.id == conversationId) with
  | none => .notFound
  | some convo =>
    let isUser := actor.typ = "user" ∧ convo.user = actor.id
    let isCompany := actor.typ = "company" ∧ convo.company = actor.id
    if ¬(isUser ∨ isCompany) then .forbidden
    else
      let q := w.msgs.filter (fun m =>
        m.conversation == conversationId &&
          Option.all (fun cu => decide (m.id < cu)) cursor)
      let page := (sortByIdDesc q).take lim
      let messagesAsc := page.reverse
      .ok messagesAsc
        (match messagesAsc with
         | [] => none
         | m :: _ => some m.id)

/-- A client that repeatedly calls `listMessages`, following the returned
cursor, until an empty page arrives (fuel bounds the number of calls). -/
def collectPages (w : World) (actor : Actor) (conversationId : Nat)
    (limit : Option Nat) : Nat → Option Nat → List (List Msg)
  | 0, _ => []
  | fuel + 1, cursor =>
    match listMessages w actor conversationId cursor limit with
    | .ok page next =>
      match page, next with
      | [], _ => []
      | _ :: _, none => [page]
      | _ :: _, some n =>
        page :: collectPages w actor conversationId limit fuel (some n)
    | _ => []

theorem updateFirst_find?_eq (p : Conversation → Bool) (f : Conversation → Conversation)
    (l : List Conversation) (x : Conversation) (hx : l.find? p = some x)
    (hpf : p (f x) = true) :
    (updateFirst p f l).find? p = some (f x) := by
  induction l with
  | nil => simp at hx
  | cons hd tl ih =>
    by_cases h : p hd
    · simp only [List.find?, h] at hx
      injection hx with hx
      subst hx
      simp [updateFirst, h, List.find?, hpf]
    · have hb : p hd = false := by simpa using h
      simp only [List.find?, hb] at hx
      simp [updateFirst, hb, List.find?, ih hx]

theorem filter_updateFirst_length (p : Conversation → Bool) (f : Conversation → Conversation)
    (l : List Conversation) (hpf : ∀ x, p x = true → p (f x) = true) :
    ((updateFirst p f l).filter p).length = (l.filter p).length := by
  induction l with
  | nil => rfl
  | cons hd tl ih =>
    by_cases h : p hd
    · simp [updateFirst, h, hpf hd h]
    · have hb : p hd = false := by simpa using h
      simp [updateFirst, hb, ih]

theorem runStarts_stable (u c : Nat) (ts : List Nat) :
    ∀ (w : World) (conv : Conversation),
      w.convos.find? (matchesPair u c) = some conv →
      countPair w u c = 1 →
      (runStarts w u c ts).2 = List.replicate ts.length conv.id ∧
        countPair (runStarts w u c ts).1 u c = 1 := by
  induction ts with
  | nil => intro w conv _ h2; exact ⟨rfl, h2⟩
  | cons t ts ih =>
    intro w conv h1 h2
    have hm : matchesPair u c conv = true := List.find?_some h1
    have hpf : matchesPair u c { conv with lastMessageAt := t } = true := by
      simpa [matchesPair] using hm
    have hfind' := updateFirst_find?_eq (matchesPair u c)
      (fun d => { d with lastMessageAt := t }) w.convos conv h1 hpf
    have hcount' :
        countPair (findOneAndUpdateConversation w u c t).1 u c = 1 := by
      unfold countPair
      simp only [findOneAndUpdateConversation, h1]
      rw [filter_updateFirst_length]
      · exact h2
      · intro x hx
        simpa [matchesPair] using hx
    have hfind'' :
        (findOneAndUpdateConversation w u c t).1.convos.find? (matchesPair u c) =
          some { conv with lastMessageAt := t } := by
      simp only [findOneAndUpdateConversation, h1]
      exact hfind'
    obtain ⟨ha, hb⟩ := ih _ _ hfind'' hcount'
    refine ⟨?_, ?_⟩
    · simp only [runStarts, ha]
      simp [findOneAndUpdateConversation, h1, List.replicate]
    · simpa [runStarts] using hb

theorem upsert_establishes (w : World) (u c t : Nat) (h : countPair w u c ≤ 1) :
    ∃ conv', (findOneAndUpdateConversation w u c t).1.convos.find? (matchesPair u c) =
        some conv' ∧
      conv'.id = (findOneAndUpdateConversation w u c t).2.id ∧
      countPair (findOneAndUpdateConversation w u c t).1 u c = 1 := by
  cases hx : w.convos.find? (matchesPair u c) with
  | some conv =>
    have hm : matchesPair u c conv = true := List.find?_some hx
    have hpf : matchesPair u c { conv with lastMessageAt := t } = true := by
      simpa [matchesPair] using hm
    refine ⟨{ conv with lastMessageAt := t }, ?_, ?_, ?_⟩
    · simp only [findOneAndUpdateConversation, hx]
      exact updateFirst_find?_eq _ _ _ _ hx hpf
    · simp [findOneAndUpdateConversation, hx]
    · have hone : countPair w u c = 1 := by
        have hmem : conv ∈ w.convos.filter (matchesPair u c) :=
          List.mem_filter.mpr ⟨List.mem_of_find?_eq_some hx, hm⟩
        have : 1 ≤ countPair w u c := by
          unfold countPair
          exact List.length_pos.mpr (List.ne_nil_of_mem hmem)
        omega
      unfold countPair
      simp only [findOneAndUpdateConversation, hx]
      rw [filter_updateFirst_length]
      · exact hone
      · intro x hx2
        simpa [matchesPair] using hx2
  | none =>
    have hempty : w.convos.filter (matchesPair u c) = [] := by
      rcases hfe : w.convos.filter (matchesPair u c) with _ | ⟨a, rest⟩
      · rfl
      · have ha : a ∈ w.convos.filter (matchesPair u c) := by rw [hfe]; exact List.mem_cons_self _ _
        have := List.find?_eq_none.mp hx a (List.mem_filter.mp ha).1
        exact absurd (List.mem_filter.mp ha).2 (by simpa using this)
    refine ⟨_, ?_, rfl, ?_⟩
    · simp only [findOneAndUpdateConversation, hx]
      rw [List.find?_append, hx]
      simp [matchesPair]
    · unfold countPair
      simp only [findOneAndUpdateConversation, hx]
      rw [List.filter_append, hempty]
      simp [matchesPair]

/-- C3: starting from a store whose unique index holds (at most one row per
pair), any non-empty sequence of `startConversation` upserts for one
`(user, company)` pair returns the same conversation id every time and leaves
exactly one row for the pair. -/
theorem startConversation_idempotent_findOrCreate (w : World) (u c : Nat)
    (ts : List Nat) (h1 : countPair w u c ≤ 1) (h2 : ts ≠ []) :
    (∀ x ∈ (runStarts w u c ts).2, ∀ y ∈ (runStarts w u c ts).2, x = y) ∧
      countPair (runStarts w u c ts).1 u c = 1 := by
  cases ts with
  | nil => exact absurd rfl h2
  | cons t ts =>
    obtain ⟨conv', hfind, hid, hcount⟩ := upsert_establishes w u c t h1
    obtain ⟨ha, hb⟩ := runStarts_stable u c ts _ conv' hfind hcount
    have hshape : (runStarts w u c (t :: ts)).2 =
        (findOneAndUpdateConversation w u c t).2.id ::
          (runStarts (findOneAndUpdateConversation w u c t).1 u c ts).2 := rfl
    constructor
    · intro x hx y hy
      rw [hshape, ha] at hx hy
      have hval : ∀ z, z ∈ ((findOneAndUpdateConversation w u c t).2.id ::
          List.replicate ts.length conv'.id) → z = conv'.id := by
        intro z hz
        rcases List.mem_cons.mp hz with hz | hz
        · rw [hz, ← hid]
        · exact List.eq_of_mem_replicate hz
      rw [hval x hx, hval y hy]
    · have : (runStarts w u c (t :: ts)).1 =
          (runStarts (findOneAndUpdateConversation w u c t).1 u c ts).1 := rfl
      rw [this]
      exact hb

/-- C3 witness: two start calls on an empty store agree on the created id and
leave one row. -/
theorem startConversation_idempotent_findOrCreate_witness :
    (∀ x ∈ (runStarts ⟨[], [], [], 0⟩ 1 2 [5, 6]).2,
        ∀ y ∈ (runStarts ⟨[], [], [], 0⟩ 1 2 [5, 6]).2, x = y) ∧
      countPair (runStarts ⟨[], [], [], 0⟩ 1 2 [5, 6]).1 1 2 = 1 :=
  startConversation_idempotent_findOrCreate ⟨[], [], [], 0⟩ 1 2 [5, 6]
    (by decide) (by decide)

/-- C10: starting a conversation whose row already exists is not a pure read:
the row's `lastMessageAt` is set to the call time while its identity, pair,
preview, unread counters and archive flags are unchanged, and no message or
notification is written. -/
theorem startConversation_touch_frame (w : World) (u c t : Nat)
    (conv : Conversation) (hfind : w.convos.find? (matchesPair u c) = some conv) :
    (findOneAndUpdateConversation w u c t).2.id = conv.id ∧
      (findOneAndUpdateConversation w u c t).2.user = conv.user ∧
      (findOneAndUpdateConversation w u c t).2.company = conv.company ∧
      (findOneAndUpdateConversation w u c t).2.lastMessageAt = t ∧
      (findOneAndUpdateConversation w u c t).2.lastMessagePreview =
        conv.lastMessagePreview ∧
      (findOneAndUpdateConversation w u c t).2.userUnreadCount =
        conv.userUnreadCount ∧
      (findOneAndUpdateConversation w u c t).2.companyUnreadCount =
        conv.companyUnreadCount ∧
      (findOneAndUpdateConversation w u c t).2.archivedByUser =
        conv.archivedByUser ∧
      (findOneAndUpdateConversation w u c t).2.archivedByCompany =
        conv.archivedByCompany ∧
      (findOneAndUpdateConversation w u c t).1.msgs = w.msgs ∧
      (findOneAndUpdateConversation w u c t).1.notifs = w.notifs ∧
      (findOneAndUpdateConversation w u c t).1.convos =
        updateFirst (matchesPair u c) (fun d => { d with lastMessageAt := t })
          w.convos := by
  simp [findOneAndUpdateConversation, hfind]

/-- C10 witness: touching a concrete existing conversation. -/
theorem startConversation_touch_frame_witness :
    (findOneAndUpdateConversation
        ⟨[⟨7, 1, 2, 3, "p", 4, 5, false, true⟩], [], [], 8⟩ 1 2 9).2.id = 7 ∧
      countPair (findOneAndUpdateConversation
        ⟨[⟨7, 1, 2, 3, "p", 4, 5, false, true⟩], [], [], 8⟩ 1 2 9).1 1 2 = 1 := by
  have h := startConversation_touch_frame
    ⟨[⟨7, 1, 2, 3, "p", 4, 5, false, true⟩], [], [], 8⟩ 1 2 9
    ⟨7, 1, 2, 3, "p", 4, 5, false, true⟩ (by decide)
  exact ⟨h.1, by decide⟩

/-- The payload text `sendMessage` persists for a given input: in the
attachment branch an absent or empty text becomes the empty string (longer
texts are sliced to 4000), in the text branch the text is trimmed. -/
def payloadText (inp : SendInput) : String :=
  match inp.file with
  | some _ =>
    match inp.text with
    | some t => if t = "" then "" else takeChars t 4000
    | none => ""
  | none =>
    match inp.text with
    | some t => jsTrim t
    | none => ""

/-- The attachment list `sendMessage` persists for a given input. -/
def payloadAtts (inp : SendInput) : List Attachment :=
  match inp.file with
  | some f =>
    [{ url := "/uploads/chat/" ++ f.filename,
       kind := if strStartsWith f.mimetype "image/" then "image" else "file",
       name := f.originalname, size := f.size }]
  | none => []

/-- `sendMessage`'s acceptance predicate: an uploaded file, or a present,
non-empty text of at most 4000 characters. -/
def validInput (inp : SendInput) : Bool :=
  inp.file.isSome ||
    (match inp.text with
     | some t => decide (t ≠ "" ∧ t.length ≤ 4000)
     | none => false)

theorem sendMessage_eq_sendAccept (isOnline : String → Nat → Bool)
    (profileName : String → Nat → Option String) (w : World) (actor : Actor)
    (cid : Nat) (inp : SendInput) (now : Nat) (convo : Conversation)
    (hfind : w.convos.find? (fun conv => conv.id == cid) = some convo)
    (hauth : (actor.typ = "user" ∧ convo.user = actor.id) ∨
      (actor.typ = "company" ∧ convo.company = actor.id))
    (hvalid : validInput inp = true) :
    sendMessage isOnline profileName w actor cid inp now =
      sendAccept isOnline profileName w actor convo (payloadText inp)
        (payloadAtts inp) now := by
  have hnot : ¬¬((actor.typ = "user" ∧ convo.user = actor.id) ∨
      (actor.typ = "company" ∧ convo.company = actor.id)) := not_not_intro hauth
  cases hf : inp.file with
  | some f =>
    simp only [sendMessage, hfind, if_neg hnot, hf, payloadText, payloadAtts]
  | none =>
    cases ht : inp.text with
    | none =>
      rw [validInput, hf, ht] at hvalid
      simp at hvalid
    | some t =>
      rw [validInput, hf, ht] at hvalid
      simp only [Option.isSome_none, Bool.false_or, decide_eq_true_eq] at hvalid
      have hcond : ¬(t = "" ∨ t.length > 4000) := by
        intro hcon
        rcases hcon with hcon | hcon
        · exact hvalid.1 hcon
        · omega
      simp only [sendMessage, hfind, if_neg hnot, hf, ht, if_neg hcond,
        payloadText, payloadAtts]

theorem sendAccept_spec (isOnline : String → Nat → Bool)
    (profileName : String → Nat → Option String) (w : World) (actor : Actor)
    (convo : Conversation) (txt : String) (atts : List Attachment) (now : Nat)
    (hfind : w.convos.find? (fun d => d.id == convo.id) = some convo) :
    (sendAccept isOnline profileName w actor convo txt atts now).2 =
      SendResult.ok
        { id := w.nextId, conversation := convo.id, senderType := actor.typ,
          senderUser := if actor.typ = "user" then some actor.id else none,
          senderCompany := if actor.typ = "company" then some actor.id else none,
          text := jsTrim txt, attachments := atts, createdAt := now,
          deliveredAt := now, readAt := none } ∧
    (sendAccept isOnline profileName w actor convo txt atts now).1.msgs =
      w.msgs ++
        [{ id := w.nextId, conversation := convo.id, senderType := actor.typ,
           senderUser := if actor.typ = "user" then some actor.id else none,
           senderCompany := if actor.typ = "company" then some actor.id else none,
           text := jsTrim txt, attachments := atts, createdAt := now,
           deliveredAt := now, readAt := none }] ∧
    (sendAccept isOnline profileName w actor convo txt atts now).1.convos.find?
        (fun d => d.id == convo.id) =
      some
        { convo with
          lastMessageAt := now,
          lastMessagePreview := takeChars (jsTrim txt) 200,
          userUnreadCount :=
            if actor.typ = "user" then convo.userUnreadCount
            else convo.userUnreadCount + 1,
          companyUnreadCount :=
            if actor.typ = "user" then convo.companyUnreadCount + 1
            else convo.companyUnreadCount } ∧
    (isOnline (if actor.typ = "user" then "company" else "user")
        (if actor.typ = "user" then convo.company else convo.user) = true →
      (sendAccept isOnline profileName w actor convo txt atts now).1.notifs =
        w.notifs) ∧
    (isOnline (if actor.typ = "user" then "company" else "user")
        (if actor.typ = "user" then convo.company else convo.user) = false →
      (sendAccept isOnline profileName w actor convo txt atts now).1.notifs =
        w.notifs ++
          [{ userId := if actor.typ = "user" then none else some convo.user,
             companyId := if actor.typ = "user" then some convo.company else none,
             kind := "message_received",
             title := "New message from " ++
               ((profileName actor.typ actor.id).getD
                 (if actor.typ = "user" then "A user" else "A company")),
             message :=
               if jsTrim txt = "" then "Sent an attachment"
               else takeChars (jsTrim txt) 100 ++
                 (if (jsTrim txt).length > 100 then "..." else ""),
             priority := "medium" }]) := by
  have hfind2 : (updateFirst (fun d => d.id == convo.id)
      (fun _ => { convo with
        lastMessageAt := now,
        lastMessagePreview := takeChars (jsTrim txt) 200,
        userUnreadCount :=
          if actor.typ = "user" then convo.userUnreadCount
          else convo.userUnreadCount + 1,
        companyUnreadCount :=
          if actor.typ = "user" then convo.companyUnreadCount + 1
          else convo.companyUnreadCount }) w.convos).find?
        (fun d => d.id == convo.id) =
      some { convo with
        lastMessageAt := now,
        lastMessagePreview := takeChars (jsTrim txt) 200,
        userUnreadCount :=
          if actor.typ = "user" then convo.userUnreadCount
          else convo.userUnreadCount + 1,
        companyUnreadCount :=
          if actor.typ = "user" then convo.companyUnreadCount + 1
          else convo.companyUnreadCount } := by
    apply updateFirst_find?_eq _ _ _ _ hfind
    simp
  by_cases hu : actor.typ = "user"
  · by_cases hon : isOnline "company" convo.company = true
    · refine ⟨?_, ?_, ?_, fun _ => ?_, fun hoff => ?_⟩
      · simp [sendAccept, hu, hon]
      · simp [sendAccept, hu, hon]
      · simpa [sendAccept, hu, hon] using hfind2
      · simp [sendAccept, hu, hon]
      · simp [hu] at hoff
        rw [hoff] at hon
        cases hon
    · have hon' : isOnline "company" convo.company = false := by simpa using hon
      refine ⟨?_, ?_, ?_, fun hcon => ?_, fun _ => ?_⟩
      · simp [sendAccept, createNotification, hu, hon']
      · simp [sendAccept, createNotification, hu, hon']
      · simpa [sendAccept, createNotification, hu, hon'] using hfind2
      · simp [hu] at hcon
        rw [hcon] at hon'
        cases hon'
      · simp [sendAccept, createNotification, hu, hon']
  · by_cases hon : isOnline "user" convo.user = true
    · refine ⟨?_, ?_, ?_, fun _ => ?_, fun hoff => ?_⟩
      · simp [sendAccept, hu, hon]
      · simp [sendAccept, hu, hon]
      · simpa [sendAccept, hu, hon] using hfind2
      · simp [sendAccept, hu, hon]
      · simp [hu] at hoff
        rw [hoff] at hon
        cases hon
    · have hon' : isOnline "user" convo.user = false := by simpa using hon
      refine ⟨?_, ?_, ?_, fun hcon => ?_, fun _ => ?_⟩
      · simp [sendAccept, createNotification, hu, hon']
      · simp [sendAccept, createNotification, hu, hon']
      · simpa [sendAccept, createNotification, hu, hon'] using hfind2
      · simp [hu] at hcon
        rw [hcon] at hon'
        cases hon'
      · simp [sendAccept, createNotification, hu, hon']

/-- C4 counterexample: sending an attachment-only message (no text) on a
conversation whose preview was previously non-empty is accepted, and sets
`lastMessagePreview` to the empty string — not to a placeholder. -/
theorem sendMessage_attachment_only_preview_is_empty :
    ((sendMessage (fun _ _ => true) (fun _ _ => none)
        ⟨[⟨0, 1, 2, 0, "x", 0, 0, false, false⟩], [], [], 3⟩ ⟨"user", 1⟩ 0
        ⟨none, some ⟨"f.png", "image/png", "orig", 10⟩⟩ 5).1.convos =
      [⟨0, 1, 2, 5, "", 0, 1, false, false⟩]) ∧
    ((sendMessage (fun _ _ => true) (fun _ _ => none)
        ⟨[⟨0, 1, 2, 0, "x", 0, 0, false, false⟩], [], [], 3⟩ ⟨"user", 1⟩ 0
        ⟨none, some ⟨"f.png", "image/png", "orig", 10⟩⟩ 5).2 =
      SendResult.ok
        ⟨3, 0, "user", some 1, none, "",
          [⟨"/uploads/chat/f.png", "image", "orig", 10⟩], 5, 5, none⟩) :=
  ⟨rfl, rfl⟩

/-- C4 (amended): an accepted `sendMessage` bumps the non-sending side's
unread counter by exactly 1, leaves the sender's counter alone, and sets
`lastMessagePreview` to the stored (trimmed) message text truncated to 200
characters — which is the empty string, not a placeholder, for an
attachment-only message. -/
theorem sendMessage_unread_increment_and_preview (isOnline : String → Nat → Bool)
    (profileName : String → Nat → Option String) (w : World) (actor : Actor)
    (cid : Nat) (inp : SendInput) (now : Nat) (convo : Conversation)
    (hfind : w.convos.find? (fun conv => conv.id == cid) = some convo)
    (hauth : (actor.typ = "user" ∧ convo.user = actor.id) ∨
      (actor.typ = "company" ∧ convo.company = actor.id))
    (hvalid : validInput inp = true) :
    (sendMessage isOnline profileName w actor cid inp now).1.convos.find?
        (fun d => d.id == convo.id) =
      some { convo with
        lastMessageAt := now,
        lastMessagePreview := takeChars (jsTrim (payloadText inp)) 200,
        userUnreadCount :=
          if actor.typ = "user" then convo.userUnreadCount
          else convo.userUnreadCount + 1,
        companyUnreadCount :=
          if actor.typ = "user" then convo.companyUnreadCount + 1
          else convo.companyUnreadCount } ∧
    (sendMessage isOnline profileName w actor cid inp now).2 =
      SendResult.ok
        { id := w.nextId, conversation := convo.id, senderType := actor.typ,
          senderUser := if actor.typ = "user" then some actor.id else none,
          senderCompany := if actor.typ = "company" then some actor.id else none,
          text := jsTrim (payloadText inp), attachments := payloadAtts inp,
          createdAt := now, deliveredAt := now, readAt := none } ∧
    (inp.text = none ∨ inp.text = some "" → takeChars (jsTrim (payloadText inp)) 200 = "") := by
  have hcid : convo.id = cid := by
    have := List.find?_some hfind
    simpa using this
  have hfind' : w.convos.find? (fun d => d.id == convo.id) = some convo := by
    rw [hcid]
    exact hfind
  rw [sendMessage_eq_sendAccept isOnline profileName w actor cid inp now convo
    hfind hauth hvalid]
  obtain ⟨h1, _, h3, _, _⟩ := sendAccept_spec isOnline profileName w actor convo
    (payloadText inp) (payloadAtts inp) now hfind'
  refine ⟨h3, h1, fun hempty => ?_⟩
  have hpt : payloadText inp = "" := by
    rcases hempty with hempty | hempty <;> cases hf : inp.file <;>
      simp only [payloadText, hf, hempty] <;> rfl
  rw [hpt]
  rfl

/-- C4 witness: a plain text send by the user side bumps the company's unread
counter from 0 to 1 and stores the text as preview. -/
theorem sendMessage_unread_increment_and_preview_witness :
    (sendMessage (fun _ _ => true) (fun _ _ => none)
        ⟨[⟨0, 1, 2, 0, "", 0, 0, false, false⟩], [], [], 7⟩ ⟨"user", 1⟩ 0
        ⟨some "hello", none⟩ 5).1.convos.find? (fun d => d.id == 0) =
      some ⟨0, 1, 2, 5, "hello", 0, 1, false, false⟩ :=
  (sendMessage_unread_increment_and_preview (fun _ _ => true) (fun _ _ => none)
    ⟨[⟨0, 1, 2, 0, "", 0, 0, false, false⟩], [], [], 7⟩ ⟨"user", 1⟩ 0
    ⟨some "hello", none⟩ 5 ⟨0, 1, 2, 0, "", 0, 0, false, false⟩ rfl
    (Or.inl ⟨rfl, rfl⟩) (by decide)).1

/-- C6 counterexample: for a 101-character text sent to an offline recipient
the persisted notification message is the first 100 characters followed by an
ellipsis, which differs from the first 100 characters themselves. -/
theorem notification_preview_appends_ellipsis :
    ((sendMessage (fun _ _ => false) (fun _ _ => none)
        ⟨[⟨0, 1, 2, 0, "", 0, 0, false, false⟩], [], [], 3⟩ ⟨"user", 1⟩ 0
        ⟨some (String.mk (List.replicate 101 'a')), none⟩ 5).1.notifs.map
          Notif.message =
      [String.mk (List.replicate 100 'a') ++ "..."]) ∧
    takeChars (String.mk (List.replicate 101 'a')) 100 =
      String.mk (List.replicate 100 'a') ∧
    String.mk (List.replicate 100 'a') ++ "..." ≠
      String.mk (List.replicate 100 'a') := by
  refine ⟨rfl, rfl, fun h => ?_⟩
  have h2 := congrArg String.length h
  rw [String.length_append] at h2
  have h3 : ("..." : String).length = 3 := rfl
  omega

/-- C6 (amended): for an accepted message, if the recipient is offline exactly
one notification is persisted, with type `message_received`, priority
`medium`, and message equal to the first 100 characters of the stored text
with an ellipsis appended when the text is longer than 100 characters (or the
attachment placeholder for an empty text); if the recipient is online no
notification is persisted. -/
theorem sendMessage_offline_notification (isOnline : String → Nat → Bool)
    (profileName : String → Nat → Option String) (w : World) (actor : Actor)
    (cid : Nat) (inp : SendInput) (now : Nat) (convo : Conversation)
    (hfind : w.convos.find? (fun conv => conv.id == cid) = some convo)
    (hauth : (actor.typ = "user" ∧ convo.user = actor.id) ∨
      (actor.typ = "company" ∧ convo.company = actor.id))
    (hvalid : validInput inp = true) :
    (isOnline (if actor.typ = "user" then "company" else "user")
        (if actor.typ = "user" then convo.company else convo.user) = true →
      (sendMessage isOnline profileName w actor cid inp now).1.notifs =
        w.notifs) ∧
    (isOnline (if actor.typ = "user" then "company" else "user")
        (if actor.typ = "user" then convo.company else convo.user) = false →
      (sendMessage isOnline profileName w actor cid inp now).1.notifs =
        w.notifs ++
          [{ userId := if actor.typ = "user" then none else some convo.user,
             companyId :=
               if actor.typ = "user" then some convo.company else none,
             kind := "message_received",
             title := "New message from " ++
               ((profileName actor.typ actor.id).getD
                 (if actor.typ = "user" then "A user" else "A company")),
             message :=
               if jsTrim (payloadText inp) = "" then "Sent an attachment"
               else takeChars (jsTrim (payloadText inp)) 100 ++
                 (if (jsTrim (payloadText inp)).length > 100 then "..." else ""),
             priority := "medium" }]) := by
  have hcid : convo.id = cid := by
    have := List.find?_some hfind
    simpa using this
  have hfind' : w.convos.find? (fun d => d.id == convo.id) = some convo := by
    rw [hcid]
    exact hfind
  rw [sendMessage_eq_sendAccept isOnline profileName w actor cid inp now convo
    hfind hauth hvalid]
  obtain ⟨_, _, _, h4, h5⟩ := sendAccept_spec isOnline profileName w actor convo
    (payloadText inp) (payloadAtts inp) now hfind'
  exact ⟨h4, h5⟩

/-- C6 witness: with the recipient offline, a short text send persists exactly
one `message_received` notification carrying the full text. -/
theorem sendMessage_offline_notification_witness :
    (sendMessage (fun _ _ => false) (fun _ _ => none)
        ⟨[⟨0, 1, 2, 0, "", 0, 0, false, false⟩], [], [], 3⟩ ⟨"user", 1⟩ 0
        ⟨some "hi", none⟩ 5).1.notifs =
      [⟨none, some 2, "message_received", "New message from A user", "hi",
        "medium"⟩] :=
  (sendMessage_offline_notification (fun _ _ => false) (fun _ _ => none)
    ⟨[⟨0, 1, 2, 0, "", 0, 0, false, false⟩], [], [], 3⟩ ⟨"user", 1⟩ 0
    ⟨some "hi", none⟩ 5 ⟨0, 1, 2, 0, "", 0, 0, false, false⟩ rfl
    (Or.inl ⟨rfl, rfl⟩) (by decide)).2 rfl

/-- C8 counterexample: a whitespace-only text (one space, no attachment) is
truthy in the validation check, so it is accepted and a message with empty
trimmed text is persisted — the claim says it must be rejected. -/
theorem sendMessage_whitespace_text_accepted :
    ((sendMessage (fun _ _ => true) (fun _ _ => none)
        ⟨[⟨0, 1, 2, 0, "", 0, 0, false, false⟩], [], [], 3⟩ ⟨"user", 1⟩ 0
        ⟨some " ", none⟩ 5).2 =
      SendResult.ok ⟨3, 0, "user", some 1, none, "", [], 5, 5, none⟩) ∧
    ((sendMessage (fun _ _ => true) (fun _ _ => none)
        ⟨[⟨0, 1, 2, 0, "", 0, 0, false, false⟩], [], [], 3⟩ ⟨"user", 1⟩ 0
        ⟨some " ", none⟩ 5).1.msgs =
      [⟨3, 0, "user", some 1, none, "", [], 5, 5, none⟩]) :=
  ⟨rfl, rfl⟩

/-- C8 (amended): on a found, authorized conversation, `sendMessage` accepts
an input iff it carries an attachment or a present, non-empty (possibly
whitespace-only) text of at most 4000 characters; a rejected input yields a
validation failure with the store completely unchanged. -/
theorem sendMessage_validation (isOnline : String → Nat → Bool)
    (profileName : String → Nat → Option String) (w : World) (actor : Actor)
    (cid : Nat) (inp : SendInput) (now : Nat) (convo : Conversation)
    (hfind : w.convos.find? (fun conv => conv.id == cid) = some convo)
    (hauth : (actor.typ = "user" ∧ convo.user = actor.id) ∨
      (actor.typ = "company" ∧ convo.company = actor.id)) :
    (validInput inp = false →
      sendMessage isOnline profileName w actor cid inp now =
        (w, SendResult.invalidText)) ∧
    (validInput inp = true →
      (sendMessage isOnline profileName w actor cid inp now).2 =
        SendResult.ok
          { id := w.nextId, conversation := convo.id, senderType := actor.typ,
            senderUser := if actor.typ = "user" then some actor.id else none,
            senderCompany :=
              if actor.typ = "company" then some actor.id else none,
            text := jsTrim (payloadText inp), attachments := payloadAtts inp,
            createdAt := now, deliveredAt := now, readAt := none }) := by
  have hcid : convo.id = cid := by
    have := List.find?_some hfind
    simpa using this
  have hfind' : w.convos.find? (fun d => d.id == convo.id) = some convo := by
    rw [hcid]
    exact hfind
  have hnot : ¬¬((actor.typ = "user" ∧ convo.user = actor.id) ∨
      (actor.typ = "company" ∧ convo.company = actor.id)) := not_not_intro hauth
  constructor
  · intro hv
    cases hf : inp.file with
    | some f =>
      rw [validInput, hf] at hv
      simp at hv
    | none =>
      cases ht : inp.text with
      | none =>
        simp only [sendMessage, hfind]
        rw [if_neg hnot]
        simp only [hf, ht]
      | some t =>
        rw [validInput, hf, ht] at hv
        simp only [Option.isSome_none, Bool.false_or, decide_eq_false_iff_not,
          not_and, not_le, ne_eq, not_not] at hv
        have hcond : t = "" ∨ t.length > 4000 := by
          by_cases he : t = ""
          · exact Or.inl he
          · exact Or.inr (hv he)
        simp only [sendMessage, hfind]
        rw [if_neg hnot]
        simp only [hf, ht]
        rw [if_pos hcond]
  · intro hv
    rw [sendMessage_eq_sendAccept isOnline profileName w actor cid inp now convo
      hfind hauth hv]
    exact (sendAccept_spec isOnline profileName w actor convo (payloadText inp)
      (payloadAtts inp) now hfind').1

/-- C8 witness: an input with neither text nor attachment is rejected with the
store unchanged, and a valid text is accepted. -/
theorem sendMessage_validation_witness :
    (sendMessage (fun _ _ => true) (fun _ _ => none)
        ⟨[⟨0, 1, 2, 0, "", 0, 0, false, false⟩], [], [], 3⟩ ⟨"user", 1⟩ 0
        ⟨none, none⟩ 5) =
      (⟨[⟨0, 1, 2, 0, "", 0, 0, false, false⟩], [], [], 3⟩,
        SendResult.invalidText) :=
  (sendMessage_validation (fun _ _ => true) (fun _ _ => none)
    ⟨[⟨0, 1, 2, 0, "", 0, 0, false, false⟩], [], [], 3⟩ ⟨"user", 1⟩ 0
    ⟨none, none⟩ 5 ⟨0, 1, 2, 0, "", 0, 0, false, false⟩ rfl
    (Or.inl ⟨rfl, rfl⟩)).1 rfl

theorem stampMsg_idem (cid : Nat) (other : String) (t1 t2 : Nat) (m : Msg) :
    stampMsg cid other t2 (stampMsg cid other t1 m) = stampMsg cid other t1 m := by
  unfold stampMsg
  by_cases h : m.conversation = cid ∧ m.readAt = none ∧ m.senderType = other
  · rw [if_pos h, if_neg]
    intro hcon
    exact absurd hcon.2.1 (by simp)
  · rw [if_neg h, if_neg h]

theorem updateFirst_const_idem (p : Conversation → Bool) (c : Conversation)
    (l : List Conversation) (hc : p c = true) :
    updateFirst p (fun _ => c) (updateFirst p (fun _ => c) l) =
      updateFirst p (fun _ => c) l := by
  induction l with
  | nil => rfl
  | cons hd tl ih =>
    by_cases h : p hd
    · simp [updateFirst, h, hc]
    · have hb : p hd = false := by simpa using h
      simp [updateFirst, hb, ih]

/-- C5: `markRead` by a participant succeeds, stamps `readAt` on exactly the
conversation's unread counterparty messages in one batch (never touching an
already-set `readAt`), resets the reading side's unread counter to zero, and
is idempotent: an immediately repeated call returns the identical store. -/
theorem markRead_batch_reset_idempotent (w : World) (actor : Actor)
    (cid now now2 : Nat) (convo : Conversation)
    (hfind : w.convos.find? (fun conv => conv.id == cid) = some convo)
    (hmember : (actor.typ = "user" ∧ convo.user = actor.id) ∨
      (¬actor.typ = "user" ∧ convo.company = actor.id)) :
    (markRead w actor cid now).2 = MarkReadResult.ok ∧
    (markRead w actor cid now).1.msgs =
      w.msgs.map
        (stampMsg cid (if actor.typ = "user" then "company" else "user") now) ∧
    (∀ m : Msg, m.conversation = cid →
      m.senderType = (if actor.typ = "user" then "company" else "user") →
      m.readAt = none →
      stampMsg cid (if actor.typ = "user" then "company" else "user") now m =
        { m with readAt := some now }) ∧
    (∀ (m : Msg) (t0 : Nat), m.readAt = some t0 →
      stampMsg cid (if actor.typ = "user" then "company" else "user") now m = m) ∧
    (markRead w actor cid now).1.convos.find? (fun d => d.id == cid) =
      some
        (if actor.typ = "user" then { convo with userUnreadCount := 0 }
         else { convo with companyUnreadCount := 0 }) ∧
    (markRead w actor cid now).1.notifs = w.notifs ∧
    markRead (markRead w actor cid now).1 actor cid now2 =
      ((markRead w actor cid now).1, MarkReadResult.ok) := by
  have hcid : convo.id = cid := by
    have := List.find?_some hfind
    simpa using this
  have hnm : ¬¬((actor.typ = "user" ∧ convo.user = actor.id) ∨
      (¬(actor.typ = "user") ∧ convo.company = actor.id)) := not_not_intro hmember
  by_cases hu : actor.typ = "user"
  · have hmu : convo.user = actor.id := by
      rcases hmember with h | h
      · exact h.2
      · exact absurd hu h.1
    have hw1 : markRead w actor cid now =
        ({ w with
            msgs := w.msgs.map (stampMsg cid "company" now),
            convos := updateFirst (fun d => d.id == convo.id)
              (fun _ => { convo with userUnreadCount := 0 }) w.convos },
          MarkReadResult.ok) := by
      simp only [markRead, hfind]
      rw [if_neg hnm]
      simp [hu]
    have hconvo' : ({ convo with userUnreadCount := 0 } : Conversation).id == convo.id := by
      simp
    have hfind' : w.convos.find? (fun d => d.id == convo.id) = some convo := by
      rw [hcid]; exact hfind
    have hfind1 : (markRead w actor cid now).1.convos.find?
        (fun d => d.id == cid) = some { convo with userUnreadCount := 0 } := by
      rw [hw1]
      simp only [← hcid]
      exact updateFirst_find?_eq _ _ _ _ hfind' (by simp)
    refine ⟨by rw [hw1], by rw [hw1]; simp [hu], ?_, ?_, ?_, by rw [hw1], ?_⟩
    · intro m h1 h2 h3
      rw [hu] at h2 ⊢
      simp only [if_pos rfl] at h2 ⊢
      unfold stampMsg
      rw [if_pos ⟨h1, h3, h2⟩]
    · intro m t0 h0
      unfold stampMsg
      rw [if_neg]
      intro hcon
      rw [h0] at hcon
      exact absurd hcon.2.1 (by simp)
    · rw [hfind1]
      simp [hu]
    · -- idempotence: the second call finds the already-reset conversation and
      -- re-stamps nothing
      rw [hw1]
      have hfind1' : (updateFirst (fun d => d.id == convo.id)
          (fun _ => { convo with userUnreadCount := 0 }) w.convos).find?
            (fun conv => conv.id == cid) =
          some { convo with userUnreadCount := 0 } := by
        simp only [← hcid]
        exact updateFirst_find?_eq _ _ _ _ hfind' (by simp)
      simp only [markRead, hfind1']
      rw [if_neg hnm]
      simp only [if_pos hu, Prod.mk.injEq, World.mk.injEq, and_true, true_and]
      constructor
      · exact updateFirst_const_idem _ _ _ (by simp)
      · rw [List.map_map]
        apply List.map_congr_left
        intro m _
        exact stampMsg_idem cid "company" now now2 m

  · have hmc : convo.company = actor.id := by
      rcases hmember with h | h
      · exact absurd h.1 hu
      · exact h.2
    have hw1 : markRead w actor cid now =
        ({ w with
            msgs := w.msgs.map (stampMsg cid "user" now),
            convos := updateFirst (fun d => d.id == convo.id)
              (fun _ => { convo with companyUnreadCount := 0 }) w.convos },
          MarkReadResult.ok) := by
      simp only [markRead, hfind]
      rw [if_neg hnm]
      simp [hu]
    have hfind' : w.convos.find? (fun d => d.id == convo.id) = some convo := by
      rw [hcid]; exact hfind
    have hfind1 : (markRead w actor cid now).1.convos.find?
        (fun d => d.id == cid) = some { convo with companyUnreadCount := 0 } := by
      rw [hw1]
      simp only [← hcid]
      exact updateFirst_find?_eq _ _ _ _ hfind' (by simp)
    refine ⟨by rw [hw1], by rw [hw1]; simp [hu], ?_, ?_, ?_, by rw [hw1], ?_⟩
    · intro m h1 h2 h3
      rw [if_neg hu] at h2 ⊢
      unfold stampMsg
      rw [if_pos ⟨h1, h3, h2⟩]
    · intro m t0 h0
      unfold stampMsg
      rw [if_neg]
      intro hcon
      rw [h0] at hcon
      exact absurd hcon.2.1 (by simp)
    · rw [hfind1]
      simp [hu]
    · rw [hw1]
      have hfind1' : (updateFirst (fun d => d.id == convo.id)
          (fun _ => { convo with companyUnreadCount := 0 }) w.convos).find?
            (fun conv => conv.id == cid) =
          some { convo with companyUnreadCount := 0 } := by
        simp only [← hcid]
        exact updateFirst_find?_eq _ _ _ _ hfind' (by simp)
      simp only [markRead, hfind1']
      rw [if_neg hnm]
      simp only [if_neg hu, Prod.mk.injEq, World.mk.injEq, and_true, true_and]
      constructor
      · exact updateFirst_const_idem _ _ _ (by simp)
      · rw [List.map_map]
        apply List.map_congr_left
        intro m _
        exact stampMsg_idem cid "user" now now2 m

/-- C5 witness: the company's unread message is stamped, the user's counter
resets, and the stamped store is a fixed point of a second call. -/
theorem markRead_batch_reset_idempotent_witness :
    (markRead ⟨[⟨0, 1, 2, 0, "", 3, 4, false, false⟩],
        [⟨10, 0, "company", none, some 2, "yo", [], 1, 1, none⟩], [], 11⟩
      ⟨"user", 1⟩ 0 5).2 = MarkReadResult.ok ∧
    (markRead ⟨[⟨0, 1, 2, 0, "", 3, 4, false, false⟩],
        [⟨10, 0, "company", none, some 2, "yo", [], 1, 1, none⟩], [], 11⟩
      ⟨"user", 1⟩ 0 5).1.convos.find? (fun d => d.id == 0) =
      some ⟨0, 1, 2, 0, "", 0, 4, false, false⟩ :=
  ⟨(markRead_batch_reset_idempotent
      ⟨[⟨0, 1, 2, 0, "", 3, 4, false, false⟩],
        [⟨10, 0, "company", none, some 2, "yo", [], 1, 1, none⟩], [], 11⟩
      ⟨"user", 1⟩ 0 5 6 ⟨0, 1, 2, 0, "", 3, 4, false, false⟩ rfl
      (Or.inl ⟨rfl, rfl⟩)).1,
   (markRead_batch_reset_idempotent
      ⟨[⟨0, 1, 2, 0, "", 3, 4, false, false⟩],
        [⟨10, 0, "company", none, some 2, "yo", [], 1, 1, none⟩], [], 11⟩
      ⟨"user", 1⟩ 0 5 6 ⟨0, 1, 2, 0, "", 3, 4, false, false⟩ rfl
      (Or.inl ⟨rfl, rfl⟩)).2.2.2.2.1⟩

/-- C9: for each conversation-scoped operation, an unknown conversation id
yields not-found and a non-participant principal yields forbidden, in both
cases with the store unchanged and no message returned. -/
theorem conversation_scoped_errors (isOnline : String → Nat → Bool)
    (profileName : String → Nat → Option String) (w : World) (actor : Actor)
    (cid : Nat) (cursor limit : Option Nat) (inp : SendInput) (now tmark : Nat) :
    (w.convos.find? (fun conv => conv.id == cid) = none →
      listMessages w actor cid cursor limit = ListResult.notFound ∧
      sendMessage isOnline profileName w actor cid inp now =
        (w, SendResult.notFound) ∧
      markRead w actor cid tmark = (w, MarkReadResult.notFound)) ∧
    (∀ convo : Conversation,
      w.convos.find? (fun conv => conv.id == cid) = some convo →
      actor.typ = "user" ∨ actor.typ = "company" →
      ¬((actor.typ = "user" ∧ convo.user = actor.id) ∨
        (actor.typ = "company" ∧ convo.company = actor.id)) →
      listMessages w actor cid cursor limit = ListResult.forbidden ∧
      sendMessage isOnline profileName w actor cid inp now =
        (w, SendResult.forbidden) ∧
      markRead w actor cid tmark = (w, MarkReadResult.forbidden)) := by
  constructor
  · intro hnone
    refine ⟨?_, ?_, ?_⟩
    · simp [listMessages, hnone]
    · simp [sendMessage, hnone]
    · simp [markRead, hnone]
  · intro convo hfind htyp hnot
    have hnot2 : ¬((actor.typ = "user" ∧ convo.user = actor.id) ∨
        (¬(actor.typ = "user") ∧ convo.company = actor.id)) := by
      intro hcon
      rcases hcon with h | h
      · exact hnot (Or.inl h)
      · rcases htyp with ht | ht
        · exact h.1 ht
        · exact hnot (Or.inr ⟨ht, h.2⟩)
    refine ⟨?_, ?_, ?_⟩
    · simp only [listMessages, hfind]
      rw [if_pos hnot]
    · simp only [sendMessage, hfind]
      rw [if_pos hnot]
    · simp only [markRead, hfind]
      rw [if_pos hnot2]

/-- C9 witness: unknown conversation id on an empty store. -/
theorem conversation_scoped_errors_witness :
    listMessages ⟨[], [], [], 0⟩ ⟨"user", 1⟩ 5 none none = ListResult.notFound ∧
    sendMessage (fun _ _ => true) (fun _ _ => none) ⟨[], [], [], 0⟩ ⟨"user", 1⟩
        5 ⟨some "x", none⟩ 9 = (⟨[], [], [], 0⟩, SendResult.notFound) ∧
    markRead ⟨[], [], [], 0⟩ ⟨"user", 1⟩ 5 9 =
      (⟨[], [], [], 0⟩, MarkReadResult.notFound) :=
  (conversation_scoped_errors (fun _ _ => true) (fun _ _ => none) ⟨[], [], [], 0⟩
    ⟨"user", 1⟩ 5 none none ⟨some "x", none⟩ 9 9).1 rfl

/-- The message query of `listMessages` for a conversation and cursor. -/
def msgsBelow (w : World) (cid : Nat) (cursor : Option Nat) : List Msg :=
  w.msgs.filter (fun m =>
    m.conversation == cid && Option.all (fun cu => decide (m.id < cu)) cursor)

theorem limVal_pos (limit : Option Nat) : 1 ≤ limVal limit := by
  cases limit with
  | none => decide
  | some n =>
    by_cases h : n = 0
    · simp [limVal, h]
    · simp only [limVal, if_neg h]
      omega

theorem getLast?_mem_of_eq_some (l : List Msg) (x : Msg)
    (h : l.getLast? = some x) : x ∈ l := by
  induction l with
  | nil => cases h
  | cons a tl ih =>
    cases tl with
    | nil =>
      simp only [List.getLast?_singleton, Option.some.injEq] at h
      simp [h]
    | cons b tl2 =>
      rw [List.getLast?_cons_cons] at h
      exact List.mem_cons_of_mem _ (ih h)

theorem insertDesc_append (m : Msg) (l : List Msg)
    (h : ∀ x ∈ l, ¬x.id ≤ m.id) : insertDesc m l = l ++ [m] := by
  induction l with
  | nil => rfl
  | cons a tl ih =>
    simp only [insertDesc]
    rw [if_neg (h a (List.mem_cons_self _ _))]
    rw [ih (fun x hx => h x (List.mem_cons_of_mem _ hx))]
    rfl

theorem sortByIdDesc_of_ascending (l : List Msg)
    (h : l.Pairwise (fun a b => a.id < b.id)) : sortByIdDesc l = l.reverse := by
  induction l with
  | nil => rfl
  | cons m rest ih =>
    rw [List.pairwise_cons] at h
    obtain ⟨hm, hrest⟩ := h
    simp only [sortByIdDesc]
    rw [ih hrest]
    rw [insertDesc_append]
    · simp
    · intro x hx
      have := hm x (List.mem_reverse.mp hx)
      omega

theorem filter_lt_getLast_take (D : List Msg) (lim : Nat) (x : Msg)
    (hD : D.Pairwise (fun a b => b.id < a.id)) (hlim : 1 ≤ lim)
    (hx : (D.take lim).getLast? = some x) :
    D.filter (fun m => decide (m.id < x.id)) = D.drop lim := by
  induction D generalizing lim with
  | nil => simp at hx
  | cons d D' ih =>
    rw [List.pairwise_cons] at hD
    obtain ⟨hd, hD'⟩ := hD
    cases lim with
    | zero => omega
    | succ l =>
      rw [List.take_succ_cons] at hx
      cases htl : D'.take l with
      | nil =>
        rw [htl] at hx
        simp only [List.getLast?_singleton, Option.some.injEq] at hx
        subst hx
        have h0 : l = 0 ∨ D' = [] := List.take_eq_nil_iff.mp htl
        have hstep : List.filter (fun m => decide (m.id < d.id)) (d :: D') =
            List.filter (fun m => decide (m.id < d.id)) D' := by
          simp [List.filter_cons]
        rw [hstep]
        have hself : D'.filter (fun m => decide (m.id < d.id)) = D' := by
          apply List.filter_eq_self.mpr
          intro a ha
          have := hd a ha
          simp only [decide_eq_true_eq]
          omega
        rw [hself, List.drop_succ_cons]
        rcases h0 with h0 | h0
        · rw [h0, List.drop_zero]
        · rw [h0, List.drop_nil]
      | cons y ys =>
        rw [htl, List.getLast?_cons_cons, ← htl] at hx
        have hxmem : x ∈ D'.take l :=
          getLast?_mem_of_eq_some _ _ hx
        have hxD' : x ∈ D' := List.mem_of_mem_take hxmem
        have hxlt : x.id < d.id := hd x hxD'
        have hl1 : 1 ≤ l := by
          rcases Nat.eq_zero_or_pos l with h0 | h0
          · rw [h0] at htl; simp at htl
          · exact h0
        have hstep : List.filter (fun m => decide (m.id < x.id)) (d :: D') =
            List.filter (fun m => decide (m.id < x.id)) D' := by
          have hdd : ¬d.id < x.id := by omega
          simp [List.filter_cons, hdd]
        rw [hstep]
        rw [ih l hD' hl1 hx, List.drop_succ_cons]

theorem msgsBelow_restrict (w : World) (cid : Nat) (cursor : Option Nat)
    (x : Msg) (hxmem : x ∈ msgsBelow w cid cursor) :
    msgsBelow w cid (some x.id) =
      (msgsBelow w cid cursor).filter (fun m => decide (m.id < x.id)) := by
  have hxcur : Option.all (fun cu => decide (x.id < cu)) cursor = true := by
    unfold msgsBelow at hxmem
    have h2 := (List.mem_filter.mp hxmem).2
    simp only [Bool.and_eq_true] at h2
    exact h2.2
  unfold msgsBelow
  rw [List.filter_filter]
  apply List.filter_congr
  intro m _
  simp only [Option.all_some]
  cases hconv : (m.conversation == cid) with
  | false => simp [hconv]
  | true =>
    simp only [hconv, Bool.true_and, Bool.and_true]
    cases hlt : decide (m.id < x.id) with
    | false => simp [hlt]
    | true =>
      simp only [hlt, Bool.true_and]
      cases cursor with
      | none => rfl
      | some cu =>
        simp only [Option.all_some] at hxcur ⊢
        have h1 : x.id < cu := of_decide_eq_true hxcur
        have h2 : m.id < x.id := of_decide_eq_true hlt
        exact (decide_eq_true (by omega : m.id < cu)).symm

theorem listMessages_ok_shape (w : World) (actor : Actor) (cid : Nat)
    (cursor limit : Option Nat) (convo : Conversation)
    (hfind : w.convos.find? (fun conv => conv.id == cid) = some convo)
    (hauth : (actor.typ = "user" ∧ convo.user = actor.id) ∨
      (actor.typ = "company" ∧ convo.company = actor.id))
    (hasc : w.msgs.Pairwise (fun a b => a.id < b.id)) :
    listMessages w actor cid cursor limit =
      ListResult.ok ((msgsBelow w cid cursor).reverse.take (limVal limit)).reverse
        (match ((msgsBelow w cid cursor).reverse.take (limVal limit)).reverse with
         | [] => none
         | m :: _ => some m.id) := by
  have hnot := not_not_intro hauth
  simp only [listMessages, hfind]
  rw [if_neg hnot]
  rw [sortByIdDesc_of_ascending _ (List.Pairwise.filter _ hasc)]
  rfl

theorem collectPages_join (w : World) (actor : Actor) (cid : Nat)
    (limit : Option Nat) (convo : Conversation)
    (hfind : w.convos.find? (fun conv => conv.id == cid) = some convo)
    (hauth : (actor.typ = "user" ∧ convo.user = actor.id) ∨
      (actor.typ = "company" ∧ convo.company = actor.id))
    (hasc : w.msgs.Pairwise (fun a b => a.id < b.id)) :
    ∀ (fuel : Nat) (cursor : Option Nat),
      (msgsBelow w cid cursor).length ≤ fuel →
      ((collectPages w actor cid limit fuel cursor).reverse).flatten =
        msgsBelow w cid cursor := by
  intro fuel
  induction fuel with
  | zero =>
    intro cursor hlen
    have hnil : msgsBelow w cid cursor = [] :=
      List.eq_nil_of_length_eq_zero (Nat.le_zero.mp hlen)
    simp [collectPages, hnil]
  | succ fuel ih =>
    intro cursor hlen
    have hpage := listMessages_ok_shape w actor cid cursor limit convo hfind
      hauth hasc
    cases hD : (msgsBelow w cid cursor).reverse.take (limVal limit) with
    | nil =>
      have hnil : (msgsBelow w cid cursor).reverse = [] := by
        rcases List.take_eq_nil_iff.mp hD with h | h
        · have := limVal_pos limit; omega
        · exact h
      have hAnil : msgsBelow w cid cursor = [] := by
        rwa [List.reverse_eq_nil_iff] at hnil
      simp only [collectPages]
      rw [hpage, hD]
      simp [hAnil]
    | cons d rest =>
      rcases hrev : (d :: rest).reverse with _ | ⟨x, xs⟩
      · exact absurd hrev (by simp)
      have hxlast : ((msgsBelow w cid cursor).reverse.take
          (limVal limit)).getLast? = some x := by
        rw [hD, ← List.head?_reverse, hrev]
        rfl
      have hxmemD : x ∈ (msgsBelow w cid cursor).reverse :=
        List.mem_of_mem_take (getLast?_mem_of_eq_some _ _ hxlast)
      have hxmemA : x ∈ msgsBelow w cid cursor := List.mem_reverse.mp hxmemD
      have hDdesc : (msgsBelow w cid cursor).reverse.Pairwise
          (fun a b => b.id < a.id) := by
        rw [List.pairwise_reverse]
        exact List.Pairwise.filter _ hasc
      have hfilter := filter_lt_getLast_take _ (limVal limit) x hDdesc
        (limVal_pos limit) hxlast
      have hnext : msgsBelow w cid (some x.id) =
          ((msgsBelow w cid cursor).reverse.drop (limVal limit)).reverse := by
        rw [msgsBelow_restrict w cid cursor x hxmemA]
        rw [← hfilter]
        rw [List.filter_reverse, List.reverse_reverse]
      have hlenA : 1 ≤ (msgsBelow w cid cursor).length := by
        by_contra hcon
        have h0 : msgsBelow w cid cursor = [] := by
          cases hmb : msgsBelow w cid cursor with
          | nil => rfl
          | cons a l => rw [hmb] at hcon; simp at hcon
        rw [h0] at hD
        simp at hD
      have hlen' : (msgsBelow w cid (some x.id)).length ≤ fuel := by
        rw [hnext]
        rw [List.length_reverse, List.length_drop, List.length_reverse]
        have := limVal_pos limit
        omega
      have hrec := ih (some x.id) hlen'
      simp only [collectPages]
      rw [hpage, hD, hrev]
      show ((x :: xs) ::
          collectPages w actor cid limit fuel (some x.id)).reverse.flatten =
        msgsBelow w cid cursor
      rw [List.reverse_cons, List.flatten_append]
      simp only [List.flatten_cons, List.flatten_nil, List.append_nil]
      rw [hrec, hnext]
      rw [← hrev, ← hD]
      rw [← List.reverse_append, List.take_append_drop, List.reverse_reverse]

/-- C7 (amended): every page of `listMessages` holds at most `limVal limit`
messages (where a positive limit is capped at 100, and an absent or zero
limit falls back to 30) in ascending id order, and a client that follows the
returned cursors reconstructs the conversation's full ascending message
history with no duplicates and no gaps (pages arrive newest-first, so the
pages are concatenated in reverse call order). -/
theorem listMessages_pagination (w : World) (actor : Actor) (cid : Nat)
    (cursor limit : Option Nat) (convo : Conversation)
    (hfind : w.convos.find? (fun conv => conv.id == cid) = some convo)
    (hauth : (actor.typ = "user" ∧ convo.user = actor.id) ∨
      (actor.typ = "company" ∧ convo.company = actor.id))
    (hasc : w.msgs.Pairwise (fun a b => a.id < b.id)) :
    (∀ page next, listMessages w actor cid cursor limit = ListResult.ok page next →
      page.length ≤ limVal limit ∧ page.Pairwise (fun a b => a.id < b.id)) ∧
    limVal none = 30 ∧
    (∀ fuel : Nat,
      (w.msgs.filter (fun m => m.conversation == cid)).length ≤ fuel →
      ((collectPages w actor cid limit fuel none).reverse).flatten =
        w.msgs.filter (fun m => m.conversation == cid)) := by
  have hnone : msgsBelow w cid none =
      w.msgs.filter (fun m => m.conversation == cid) := by
    unfold msgsBelow
    apply List.filter_congr
    intro m _
    simp
  refine ⟨?_, rfl, ?_⟩
  · intro page next hok
    rw [listMessages_ok_shape w actor cid cursor limit convo hfind hauth hasc]
      at hok
    injection hok with h1 h2
    constructor
    · rw [← h1, List.length_reverse]
      exact List.length_take_le _ _
    · rw [← h1]
      rw [List.pairwise_reverse]
      apply List.Pairwise.sublist (List.take_sublist _ _)
      rw [List.pairwise_reverse]
      exact List.Pairwise.filter _ hasc
  · intro fuel hfuel
    rw [← hnone] at hfuel ⊢
    exact collectPages_join w actor cid limit convo hfind hauth hasc fuel none
      hfuel

/-- C7 counterexample: a `limit` of 0 is falsy in
`parseInt(limit, 10) || 30`, so the code serves up to 30 messages — here one
message — although the claim's bound `min(limit, 100)` is 0. -/
theorem listMessages_zero_limit_counterexample :
    listMessages ⟨[⟨0, 1, 2, 0, "", 0, 0, false, false⟩],
        [⟨5, 0, "user", some 1, none, "m", [], 1, 1, none⟩], [], 9⟩
      ⟨"user", 1⟩ 0 none (some 0) =
      ListResult.ok [⟨5, 0, "user", some 1, none, "m", [], 1, 1, none⟩]
        (some 5) ∧
    min 0 100 = 0 :=
  ⟨rfl, rfl⟩

/-- C7 witness: a three-message conversation paged with limit 2 is
reconstructed exactly by following the cursors. -/
theorem listMessages_pagination_witness :
    ((collectPages ⟨[⟨0, 1, 2, 0, "", 0, 0, false, false⟩],
        [⟨3, 0, "user", some 1, none, "a", [], 1, 1, none⟩,
         ⟨4, 0, "company", none, some 2, "b", [], 2, 2, none⟩,
         ⟨6, 0, "user", some 1, none, "c", [], 3, 3, none⟩], [], 9⟩
      ⟨"user", 1⟩ 0 (some 2) 3 none).reverse).flatten =
      (⟨[⟨0, 1, 2, 0, "", 0, 0, false, false⟩],
        [⟨3, 0, "user", some 1, none, "a", [], 1, 1, none⟩,
         ⟨4, 0, "company", none, some 2, "b", [], 2, 2, none⟩,
         ⟨6, 0, "user", some 1, none, "c", [], 3, 3, none⟩], [], 9⟩ : World).msgs.filter
        (fun m => m.conversation == 0) :=
  (listMessages_pagination ⟨[⟨0, 1, 2, 0, "", 0, 0, false, false⟩],
      [⟨3, 0, "user", some 1, none, "a", [], 1, 1, none⟩,
       ⟨4, 0, "company", none, some 2, "b", [], 2, 2, none⟩,
       ⟨6, 0, "user", some 1, none, "c", [], 3, 3, none⟩], [], 9⟩
    ⟨"user", 1⟩ 0 none (some 2) ⟨0, 1, 2, 0, "", 0, 0, false, false⟩ rfl
    (Or.inl ⟨rfl, rfl⟩) (by decide)).2.2 3 (by decide)

end Chat

end Worksphere
